import Mathlib

/-!
Verification of `tracing-oslog` (`src/logger.rs`) against its specification.

The file shallowly embeds the data model and the `Layer` callbacks of
`OsLogger` (`on_new_span`, `on_event`, `on_enter`, `on_exit`, `on_close`)
as pure Lean functions, and proves the specified properties about them.
Native side effects (activity creation, the emit call) are modelled by
explicit allocation counters and returned call descriptions; a fatal
`expect`/panic is modelled by returning `none`.
-/

set_option autoImplicit false

namespace TracingOslog

/-- Modelled from the spec: `AttributeMap` lives in `src/visitor.rs`, which is
not part of the provided sources. Per spec §3 it is an ordered mapping from
field name (string) to rendered value (string), keys unique, insertion order
preserved. We model it as an association list in insertion order. -/
abbrev AttributeMap := List (String × String)

/-- Test for the reserved meta-key marker, `k.as_str().starts_with("log.")`
in `logger.rs` lines 160 and 188 (stated on the character lists so that it
evaluates by kernel reduction). -/
def isMetaKey (k : String) : Bool :=
  "log.".data.isPrefixOf k.data

/-- Test for an embedded NUL character, which `CString::new` rejects with a
`NulError`, turned into a panic by the adjacent `expect` calls
(`logger.rs` lines 112 and 202-203). -/
def hasNul (s : String) : Bool :=
  s.data.contains (Char.ofNat 0)

/-- Model of Rust's slice `join(sep)` (used by `logger.rs` via
`[target, name].join("::")` and `.collect::<Vec<_>>().join(", ")`). -/
def sepJoin (sep : String) : List String → String
  | [] => ""
  | [x] => x
  | x :: y :: xs => x ++ sep ++ sepJoin sep (y :: xs)

/-- The signature string built in `on_new_span` (`logger.rs` lines 100-110):
`"{target}::{name}({k1}: {v1}, {k2}: {v2}, ...)"` with the attributes in
insertion order. -/
def full_name (target name : String) (attributes : AttributeMap) : String :=
  let function_name := sepJoin "::" [target, name]
  function_name ++ "(" ++
    sepJoin ", " (attributes.map (fun kv => kv.1 ++ ": " ++ kv.2)) ++ ")"

/-- Severity levels of the tracing model (`tracing_core::Level`). -/
inductive Level where
  | trace
  | debug
  | info
  | warn
  | error
deriving DecidableEq, Repr

/-- Native severity levels actually used by the bridge:
`OS_LOG_TYPE_DEBUG`, `OS_LOG_TYPE_INFO`, `OS_LOG_TYPE_ERROR`. -/
inductive OsLogType where
  | debug
  | info
  | error
deriving DecidableEq, Repr

/-- The severity match in `on_event` (`logger.rs` lines 132-138). -/
def levelToOsLogType : Level → OsLogType
  | .trace => .debug
  | .debug => .debug
  | .info => .info
  | .warn => .error
  | .error => .error

/-- The attribute loop shared by the span-segment block (`logger.rs`
lines 158-172, separator `","`) and the trailing event-attribute block
(lines 186-200, separator `" "`): `acc` is the message built so far and
`n` the count of entries emitted so far; `"log."`-prefixed keys are
skipped. -/
def attrLoopGo (sep : String) (acc : String) (n : Nat) : AttributeMap → String
  | [] => acc
  | (k, v) :: rest =>
    if isMetaKey k then attrLoopGo sep acc n rest
    else attrLoopGo sep (acc ++ (if n > 0 then sep else "") ++ k ++ "=" ++ v) (n + 1) rest

/-- The attribute loop started on an empty accumulator and zero counter. -/
def attrLoop (sep : String) (attributes : AttributeMap) : String :=
  attrLoopGo sep "" 0 attributes

/-- One span segment of the rendered chain (`logger.rs` lines 146-178):
the span name, then — only if the span's attribute map is non-empty — a
`{`-`}` block filled by the comma-separated attribute loop, then `": "`. -/
def renderSpanSegment (name : String) (attributes : AttributeMap) : String :=
  name ++ (if attributes.isEmpty then "" else "\x7b" ++ attrLoop "," attributes ++ "\x7d") ++ ": "

/-- One span of the enclosing chain as seen by `on_event`: its display name
and its Activity Node's attribute map. -/
structure SpanNode where
  name : String
  attributes : AttributeMap
deriving DecidableEq, Repr

/-- The chain part of the message: `for span in scope.from_root()`
(`logger.rs` lines 145-179), segments appended root to leaf. -/
def renderChain (chain : List SpanNode) : String :=
  chain.foldl (fun acc s => acc ++ renderSpanSegment s.name s.attributes) ""

/-- Model of `AttributeMap::remove` (`logger.rs` line 181): remove the first
entry with the given key, returning its value (if any) and the remaining
map in order. Keys are unique per spec §3, so at most one entry matches. -/
def removeKey (key : String) : AttributeMap → Option String × AttributeMap
  | [] => (none, [])
  | (k, v) :: rest =>
    if k = key then (some v, rest)
    else
      let r := removeKey key rest
      (r.1, (k, v) :: r.2)

/-- The event-local part of the message (`logger.rs` lines 181-200): the
`"message"` value plus two spaces when present, then the remaining
attributes via the space-separated loop. -/
def renderEventBody (attributes : AttributeMap) : String :=
  let r := removeKey "message" attributes
  (match r.1 with
    | some value => value ++ "  "
    | none => "") ++ attrLoop " " r.2

/-- The full message built by `on_event` (`logger.rs` lines 143-200): the
chain part when an event scope exists (`ctx.event_scope(event)`), then the
event body. -/
def renderMessage (scope : Option (List SpanNode)) (attributes : AttributeMap) : String :=
  (match scope with
    | some chain => renderChain chain
    | none => "") ++ renderEventBody attributes

/-- One native emit call: `wrapped_os_log_with_type(self.logger, level,
message)` (`logger.rs` line 204). -/
structure Emission where
  level : OsLogType
  message : String
deriving DecidableEq, Repr

/-- Model of `on_event` (`logger.rs` lines 130-205): maps the level, renders
the message, converts it with `CString::new(...).expect(...)` (lines
202-203) — fatal (`none`, nothing emitted) when the rendered message has an
embedded NUL — and otherwise performs exactly the one emit call in the
returned list. -/
def on_event (level : Level) (scope : Option (List SpanNode))
    (attributes : AttributeMap) : Option (List Emission) :=
  let message := renderMessage scope attributes
  if hasNul message then none
  else some [⟨levelToOsLogType level, message⟩]

/-- The native emit calls actually performed by an `on_event` run: a run
that panics emits nothing. -/
def emissions : Option (List Emission) → List Emission
  | some es => es
  | none => []

/-- State of the process-wide `NAMES` cache (`logger.rs` lines 25-26): the
table maps a signature string to the handle of the `CString` allocated for
it; `nextAlloc` is the id the next native-string allocation will get, so
pointer identity of handles is modelled by equality of allocation ids. -/
structure InternState where
  table : List (String × Nat)
  nextAlloc : Nat
deriving DecidableEq, Repr

/-- Model of `names.entry(full_name.clone()).or_insert_with(...)`
(`logger.rs` lines 111-114): look the signature up; on a hit return the
cached handle and leave the state unchanged; on a miss run
`CString::new(full_name).expect(...)` — fatal (`none`) when the signature
has an embedded NUL — then allocate, insert and return the fresh handle. -/
def intern (st : InternState) (s : String) : Option (Nat × InternState) :=
  match st.table.find? (fun kv => kv.1 == s) with
  | some kv => some (kv.2, st)
  | none =>
    if hasNul s then none
    else some (st.nextAlloc, ⟨st.table ++ [(s, st.nextAlloc)], st.nextAlloc + 1⟩)

/-- Well-formedness of the cache: every cached handle was allocated (is
below `nextAlloc`) and no two entries share a handle. Holds of the initial
empty cache and is preserved by `intern`. -/
def InternWF (st : InternState) : Prop :=
  (∀ kv ∈ st.table, kv.2 < st.nextAlloc) ∧ (st.table.map Prod.snd).Nodup

/-- The per-span `Activity` record (`logger.rs` lines 28-31): the native
activity handle (modelled as its allocation id), the handle of the interned
name `CString` it was created with, and the captured attribute map. -/
structure Activity where
  activity : Nat
  nameHandle : Nat
  attributes : AttributeMap
deriving DecidableEq, Repr

/-- Bridge-global allocation state threaded through `on_new_span`: the
interning cache and the id of the next native activity allocation. -/
structure SysState where
  names : InternState
  nextActivity : Nat
deriving DecidableEq, Repr

/-- The parent activity resolved in `on_new_span` (`logger.rs` lines 90-96):
either the ambient `_os_activity_current` sentinel for a root span, or the
parent span's own activity handle. -/
inductive ParentRef where
  | current
  | activity (handle : Nat)
deriving DecidableEq, Repr

/-- Resolution of the parent activity (`logger.rs` lines 90-96). The input
is `none` for a root span, and otherwise the parent span's extension slot;
a parent span without an `Activity` record hits
`expect("parent span didn't contain activity wtf")`, modelled as `none`. -/
def resolveParent : Option (Option Activity) → Option ParentRef
  | none => some .current
  | some (some a) => some (.activity a.activity)
  | some none => none

/-- Model of `on_new_span` (`logger.rs` lines 84-128). `ext` is the span's
extension slot, `parent` as in `resolveParent`. When the slot already holds
an `Activity` the whole body is skipped; otherwise the parent is resolved,
the signature is interned, and a fresh native activity is allocated and
stored. A fatal `expect` — the parent lookup or the `CString::new` inside
`intern` — yields `none`. -/
def on_new_span (target name : String) (attributes : AttributeMap)
    (parent : Option (Option Activity)) (ext : Option Activity)
    (sys : SysState) : Option (Option Activity × SysState) :=
  match ext with
  | some a => some (some a, sys)
  | none =>
    match resolveParent parent with
    | none => none
    | some _ =>
      match intern sys.names (full_name target name attributes) with
      | none => none
      | some r =>
        some (some ⟨sys.nextActivity, r.1, attributes⟩,
          ⟨r.2, sys.nextActivity + 1⟩)

/-- One native scope call issued by `on_enter`/`on_exit`. -/
inductive ScopeCall where
  | enter (handle : Nat)
  | leave
deriving DecidableEq, Repr

/-- Model of `on_enter` (`logger.rs` lines 207-216): requires the span's
`Activity` (its absence hits `expect("span didn't contain activity wtf")`,
modelled as `none`) and issues `os_activity_scope_enter` on its handle. -/
def on_enter (ext : Option Activity) : Option ScopeCall :=
  match ext with
  | some a => some (.enter a.activity)
  | none => none

/-- Model of `on_exit` (`logger.rs` lines 218-222): the span id and context
are ignored (`_id`, `_ctx`); it unconditionally issues
`os_activity_scope_leave` on the shared state buffer. -/
def on_exit (_ext : Option Activity) : Option ScopeCall :=
  some .leave

/-- Model of `on_close` (`logger.rs` lines 224-230): removes the span's
`Activity` from the extension slot; its absence hits
`expect("span didn't contain activity wtf")`, modelled as `none`. The
successful result is the emptied slot. -/
def on_close (ext : Option Activity) : Option (Option Activity) :=
  match ext with
  | some _ => some none
  | none => none

/-- Join where every element is preceded by the separator; describes the
attribute loop once at least one entry has already been emitted. -/
def tailJoin (sep : String) : List String → String
  | [] => ""
  | x :: xs => sep ++ x ++ tailJoin sep xs

/-- The entries an attribute loop actually renders, as the spec describes
them: the non-meta entries (keys not `"log."`-prefixed), in order, each as
`key=value`. -/
def renderedEntries (attributes : AttributeMap) : List String :=
  (attributes.filter (fun kv => !(isMetaKey kv.1))).map (fun kv => kv.1 ++ "=" ++ kv.2)

/-- The signature string exactly as the spec words it:
`target ++ "::" ++ name ++ "(" ++ "k1: v1" ++ ", " ++ ... ++ ")"`. -/
def signatureSpec (target name : String) (attributes : AttributeMap) : String :=
  target ++ "::" ++ name ++ "(" ++
    sepJoin ", " (attributes.map (fun kv => kv.1 ++ ": " ++ kv.2)) ++ ")"

theorem sepJoin_cons (sep x : String) (xs : List String) :
    sepJoin sep (x :: xs) = x ++ tailJoin sep xs := by
  induction xs generalizing x with
  | nil => simp [sepJoin, tailJoin]
  | cons y ys ih =>
    simp only [sepJoin, tailJoin, ih y, String.append_assoc]

theorem attrLoopGo_succ (sep acc : String) (n : Nat) (attributes : AttributeMap) :
    attrLoopGo sep acc (n + 1) attributes = acc ++ tailJoin sep (renderedEntries attributes) := by
  induction attributes generalizing acc n with
  | nil => simp [attrLoopGo, renderedEntries, tailJoin]
  | cons kv rest ih =>
    obtain ⟨k, v⟩ := kv
    by_cases hk : isMetaKey k
    · simp [attrLoopGo, hk, renderedEntries, List.filter_cons, ih]
    · simp only [attrLoopGo, hk, if_false, Bool.false_eq_true, reduceIte, Nat.succ_lt_succ,
        Nat.zero_lt_succ, if_pos, ih]
      simp [renderedEntries, List.filter_cons, hk, tailJoin, String.append_assoc]

theorem attrLoopGo_zero (sep acc : String) (attributes : AttributeMap) :
    attrLoopGo sep acc 0 attributes = acc ++ sepJoin sep (renderedEntries attributes) := by
  induction attributes generalizing acc with
  | nil => simp [attrLoopGo, renderedEntries, sepJoin]
  | cons kv rest ih =>
    obtain ⟨k, v⟩ := kv
    by_cases hk : isMetaKey k
    · simp [attrLoopGo, hk, renderedEntries, List.filter_cons, ih]
    · simp only [attrLoopGo, hk, Bool.false_eq_true, reduceIte, Nat.lt_irrefl,
        attrLoopGo_succ]
      simp [renderedEntries, List.filter_cons, hk, sepJoin_cons, String.append_assoc]

/-- The attribute loop is the separator-join of exactly the non-meta
entries, rendered `key=value`, in order. -/
theorem attrLoop_eq (sep : String) (attributes : AttributeMap) :
    attrLoop sep attributes = sepJoin sep (renderedEntries attributes) := by
  simpa [attrLoop] using attrLoopGo_zero sep "" attributes

theorem removeKey_append_skip (key k v : String) (hk : k ≠ key)
    (a1 a2 : AttributeMap) :
    (removeKey key (a1 ++ (k, v) :: a2)).1 = (removeKey key (a1 ++ a2)).1 ∧
    ∃ b1 b2, (removeKey key (a1 ++ (k, v) :: a2)).2 = b1 ++ (k, v) :: b2 ∧
      (removeKey key (a1 ++ a2)).2 = b1 ++ b2 := by
  induction a1 with
  | nil =>
    exact ⟨by simp [removeKey, hk], [], (removeKey key a2).2,
      by simp [removeKey, hk], by simp⟩
  | cons kv rest ih =>
    obtain ⟨k', v'⟩ := kv
    by_cases hk' : k' = key
    · exact ⟨by simp [removeKey, hk'], rest, a2,
        by simp [removeKey, hk'], by simp [removeKey, hk']⟩
    · obtain ⟨h1, b1, b2, h2, h3⟩ := ih
      exact ⟨by simp [removeKey, hk', h1], (k', v') :: b1, b2,
        by simp [removeKey, hk', h2], by simp [removeKey, hk', h3]⟩

theorem attrLoop_append_skip (sep k v : String) (hk : isMetaKey k = true)
    (a1 a2 : AttributeMap) :
    attrLoop sep (a1 ++ (k, v) :: a2) = attrLoop sep (a1 ++ a2) := by
  have : renderedEntries (a1 ++ (k, v) :: a2) = renderedEntries (a1 ++ a2) := by
    simp [renderedEntries, List.filter_append, List.filter_cons, hk]
  rw [attrLoop_eq, attrLoop_eq, this]

theorem renderEventBody_append_skip (k v : String) (hk : isMetaKey k = true)
    (a1 a2 : AttributeMap) :
    renderEventBody (a1 ++ (k, v) :: a2) = renderEventBody (a1 ++ a2) := by
  have hkm : k ≠ "message" := by
    intro h
    rw [h] at hk
    exact absurd hk (by decide)
  obtain ⟨h1, b1, b2, h2, h3⟩ := removeKey_append_skip "message" k v hkm a1 a2
  simp only [renderEventBody, h1, h2, h3, attrLoop_append_skip " " k v hk b1 b2]

theorem intern_twice (st : InternState) (s : String) (hs : hasNul s = false) :
    ∃ h st1, intern st s = some (h, st1) ∧ intern st1 s = some (h, st1) := by
  rcases h : st.table.find? (fun kv => kv.1 == s) with _ | kv
  · have hfind :
        ((st.table ++ [(s, st.nextAlloc)]).find? (fun kv => kv.1 == s)) =
          some (s, st.nextAlloc) := by
      rw [List.find?_append, h]
      simp
    exact ⟨st.nextAlloc, ⟨st.table ++ [(s, st.nextAlloc)], st.nextAlloc + 1⟩,
      by simp [intern, h, hs], by simp [intern, hfind]⟩
  · exact ⟨kv.2, st, by simp [intern, h], by simp [intern, h]⟩

theorem intern_fresh_handle (st : InternState) (s1 s2 : String)
    (hwf : InternWF st) (hne : s1 ≠ s2)
    (hs1 : hasNul s1 = false) (hs2 : hasNul s2 = false) :
    ∃ h1 st1 h2 st2, intern st s1 = some (h1, st1) ∧
      intern st1 s2 = some (h2, st2) ∧ h1 ≠ h2 := by
  obtain ⟨hbound, hnodup⟩ := hwf
  rcases h1 : st.table.find? (fun kv => kv.1 == s1) with _ | e1
  · -- s1 is freshly allocated: its handle is st.nextAlloc.
    rcases h2 : st.table.find? (fun kv => kv.1 == s2) with _ | e2
    · -- s2 also missed the original table; in the extended table it can only
      -- miss again (the new entry has key s1 ≠ s2), so it gets nextAlloc + 1.
      have hfind :
          ((st.table ++ [(s1, st.nextAlloc)]).find? (fun kv => kv.1 == s2)) = none := by
        rw [List.find?_append, h2]
        simp [hne]
      exact ⟨st.nextAlloc, ⟨st.table ++ [(s1, st.nextAlloc)], st.nextAlloc + 1⟩,
        st.nextAlloc + 1,
        ⟨(st.table ++ [(s1, st.nextAlloc)]) ++ [(s2, st.nextAlloc + 1)], st.nextAlloc + 2⟩,
        by simp [intern, h1, hs1], by simp [intern, hfind, hs2], by omega⟩
    · -- s2 hits an old entry, whose handle is below nextAlloc.
      have he2 : e2 ∈ st.table := List.mem_of_find?_eq_some h2
      have hlt : e2.2 < st.nextAlloc := hbound e2 he2
      have hfind :
          ((st.table ++ [(s1, st.nextAlloc)]).find? (fun kv => kv.1 == s2)) =
            some e2 := by
        rw [List.find?_append, h2]
        rfl
      exact ⟨st.nextAlloc, ⟨st.table ++ [(s1, st.nextAlloc)], st.nextAlloc + 1⟩,
        e2.2, ⟨st.table ++ [(s1, st.nextAlloc)], st.nextAlloc + 1⟩,
        by simp [intern, h1, hs1], by simp [intern, hfind], by omega⟩
  · -- s1 hits an entry e1 of the table; the state is unchanged.
    have he1m : e1 ∈ st.table := List.mem_of_find?_eq_some h1
    have he1k : e1.1 = s1 := by simpa using List.find?_some h1
    rcases h2 : st.table.find? (fun kv => kv.1 == s2) with _ | e2
    · -- s2 misses and is freshly allocated, while e1's handle is older.
      have hlt : e1.2 < st.nextAlloc := hbound e1 he1m
      exact ⟨e1.2, st, st.nextAlloc, ⟨st.table ++ [(s2, st.nextAlloc)], st.nextAlloc + 1⟩,
        by simp [intern, h1], by simp [intern, h2, hs2], by omega⟩
    · -- both hit: distinct keys force distinct entries, and Nodup of the
      -- handle column forces distinct handles.
      have he2m : e2 ∈ st.table := List.mem_of_find?_eq_some h2
      have he2k : e2.1 = s2 := by simpa using List.find?_some h2
      refine ⟨e1.2, st, e2.2, st, by simp [intern, h1], by simp [intern, h2], ?_⟩
      intro h
      have : e2 = e1 := List.inj_on_of_nodup_map hnodup he2m he1m h.symm
      exact hne (he1k ▸ he2k ▸ congrArg Prod.fst this.symm)

/-! Claim theorems. -/

/-- Claim C1, counterexample: a span whose attribute map holds only
`"log."`-prefixed keys does NOT render like a span with an empty map —
the code tests `!attributes.is_empty()` on the whole map, so it emits an
empty brace block `{}`. -/
theorem onlyMeta_span_renders_empty_braces :
    renderSpanSegment "s" [("log.x", "1")] = "s{}: " ∧
    renderSpanSegment "s" [] = "s: " ∧
    renderSpanSegment "s" [("log.x", "1")] ≠ renderSpanSegment "s" [] := by
  decide

/-- Claim C1, amended: the brace-delimited block is appended whenever the
span's attribute map is non-empty — counting meta entries — and the block's
contents are exactly the non-meta entries as comma-separated `key=value`;
a map with only `"log."`-prefixed keys thus renders an empty `{}` block,
and only a truly empty map renders with no braces. -/
theorem renderSpanSegment_braces (name : String) (attributes : AttributeMap) :
    renderSpanSegment name attributes =
      name ++ (if attributes.isEmpty then ""
        else "\x7b" ++ sepJoin "," (renderedEntries attributes) ++ "\x7d") ++ ": " := by
  simp only [renderSpanSegment, attrLoop_eq]

/-- Claim C2: for the chain `a` / `b` / `c` with empty attribute maps and an
event with attributes `{message: "done", code: 7}`, `on_event` performs one
emit whose message is exactly `"a: b: c: done  code=7"`, at every level. -/
theorem chain_event_renders_exact_line (lvl : Level) :
    on_event lvl (some [⟨"a", []⟩, ⟨"b", []⟩, ⟨"c", []⟩])
        [("message", "done"), ("code", "7")] =
      some [⟨levelToOsLogType lvl, "a: b: c: done  code=7"⟩] := by
  have h : renderMessage (some [⟨"a", []⟩, ⟨"b", []⟩, ⟨"c", []⟩])
      [("message", "done"), ("code", "7")] = "a: b: c: done  code=7" := by decide
  simp only [on_event, h]
  rw [show hasNul "a: b: c: done  code=7" = false from by decide]
  simp

/-- Claim C3, counterexample: `on_exit` never inspects the span — on a span
with no `Activity` it still succeeds and issues the scope-leave call, so
"on_exit on such a span fails fatally" is false. -/
theorem on_exit_without_activity_succeeds :
    on_exit (none : Option Activity) = some ScopeCall.leave ∧
    on_exit (none : Option Activity) ≠ none := by
  decide

/-- Claim C3, amended: `on_enter` and `on_close` on a span with no Activity
Node fail fatally, while `on_exit` ignores the span entirely and always
issues the scope-leave call, whether or not an Activity Node is present. -/
theorem missing_activity_fatal :
    on_enter (none : Option Activity) = none ∧
    on_close (none : Option Activity) = none ∧
    ∀ ext : Option Activity, on_exit ext = some ScopeCall.leave :=
  ⟨rfl, rfl, fun _ => rfl⟩

/-- Claim C4: the severity mapping of `on_event` is total on the five
levels and maps TRACE and DEBUG to native debug, INFO to native info, and
WARN and ERROR to the native error/default level. -/
theorem severity_mapping_table :
    levelToOsLogType Level.trace = OsLogType.debug ∧
    levelToOsLogType Level.debug = OsLogType.debug ∧
    levelToOsLogType Level.info = OsLogType.info ∧
    levelToOsLogType Level.warn = OsLogType.error ∧
    levelToOsLogType Level.error = OsLogType.error := by
  decide

/-- Claim C5: in a well-formed cache, and for NUL-free signatures (a NUL
in a freshly interned signature is fatal, `logger.rs` line 112), interning
the same signature twice returns the identical handle and leaves the cache
unchanged (no second allocation for that signature), and interning two
distinct signatures never returns the same handle. -/
theorem intern_cache_correct (st : InternState) (s s1 s2 : String)
    (hwf : InternWF st) (hne : s1 ≠ s2)
    (hs : hasNul s = false) (hs1 : hasNul s1 = false) (hs2 : hasNul s2 = false) :
    (∃ h st1, intern st s = some (h, st1) ∧ intern st1 s = some (h, st1)) ∧
    (∃ h1 st1 h2 st2, intern st s1 = some (h1, st1) ∧
      intern st1 s2 = some (h2, st2) ∧ h1 ≠ h2) :=
  ⟨intern_twice st s hs, intern_fresh_handle st s1 s2 hwf hne hs1 hs2⟩

/-- Witness for C5 at a concrete well-formed cache and concrete distinct
NUL-free signatures. -/
theorem intern_cache_correct_witness :
    InternWF ⟨[("a", 0)], 1⟩ ∧ ("x" : String) ≠ "y" ∧
    hasNul "s" = false ∧ hasNul "x" = false ∧ hasNul "y" = false ∧
    ((∃ h st1, intern ⟨[("a", 0)], 1⟩ "s" = some (h, st1) ∧
        intern st1 "s" = some (h, st1)) ∧
      (∃ h1 st1 h2 st2, intern ⟨[("a", 0)], 1⟩ "x" = some (h1, st1) ∧
        intern st1 "y" = some (h2, st2) ∧ h1 ≠ h2)) :=
  ⟨⟨by decide, by decide⟩, by decide, by decide, by decide, by decide,
    intern_cache_correct ⟨[("a", 0)], 1⟩ "s" "x" "y" ⟨by decide, by decide⟩
      (by decide) (by decide) (by decide) (by decide)⟩

/-- Claim C6: running the span-created path a second time for the same span
is a no-op — the extension slot and the whole allocation state (interned
names and activity counter) come back unchanged. -/
theorem on_new_span_idempotent (target name : String) (attributes : AttributeMap)
    (parent : Option (Option Activity)) (ext : Option Activity) (sys : SysState)
    (r : Option Activity × SysState)
    (h : on_new_span target name attributes parent ext sys = some r) :
    on_new_span target name attributes parent r.1 r.2 = some r := by
  cases ext with
  | some a =>
    simp only [on_new_span, Option.some.injEq] at h
    rw [← h]
    rfl
  | none =>
    cases hp : resolveParent parent with
    | none => simp [on_new_span, hp] at h
    | some p =>
      cases hi : intern sys.names (full_name target name attributes) with
      | none => simp [on_new_span, hp, hi] at h
      | some r0 =>
        simp only [on_new_span, hp, hi, Option.some.injEq] at h
        rw [← h]
        rfl

/-- Witness for C6: a concrete first invocation followed by the (no-op)
second invocation. -/
theorem on_new_span_idempotent_witness :
    on_new_span "t" "n" [] none none ⟨⟨[], 0⟩, 0⟩ =
      some (some ⟨0, 0, []⟩, ⟨⟨[("t::n()", 0)], 1⟩, 1⟩) ∧
    on_new_span "t" "n" [] none (some ⟨0, 0, []⟩) ⟨⟨[("t::n()", 0)], 1⟩, 1⟩ =
      some (some ⟨0, 0, []⟩, ⟨⟨[("t::n()", 0)], 1⟩, 1⟩) :=
  ⟨by decide,
    on_new_span_idempotent "t" "n" [] none none ⟨⟨[], 0⟩, 0⟩
      (some ⟨0, 0, []⟩, ⟨⟨[("t::n()", 0)], 1⟩, 1⟩) (by decide)⟩

/-- Claim C7: the interning signature built by `on_new_span` is exactly
`target ++ "::" ++ name ++ "(" ++ ... ++ ")"` with the attributes in
insertion order, each rendered `key: value`, joined by `", "`. -/
theorem full_name_eq_signatureSpec (target name : String) (attributes : AttributeMap) :
    full_name target name attributes = signatureSpec target name attributes := by
  simp [full_name, signatureSpec, sepJoin]

/-- Claim C8: a `"log."`-prefixed attribute is skipped wherever it sits —
inserting one anywhere into a span's attribute-block loop, or into the
event's trailing attribute list, leaves the rendered output unchanged. -/
theorem meta_keys_never_rendered (k v : String) (hk : isMetaKey k = true)
    (a1 a2 : AttributeMap) :
    attrLoop "," (a1 ++ (k, v) :: a2) = attrLoop "," (a1 ++ a2) ∧
    renderEventBody (a1 ++ (k, v) :: a2) = renderEventBody (a1 ++ a2) :=
  ⟨attrLoop_append_skip "," k v hk a1 a2, renderEventBody_append_skip k v hk a1 a2⟩

/-- Witness for C8 at a concrete meta key inside concrete attribute maps. -/
theorem meta_keys_never_rendered_witness :
    isMetaKey "log.line" = true ∧
    (attrLoop "," ([("u", "1")] ++ ("log.line", "7") :: [("w", "2")]) =
        attrLoop "," ([("u", "1")] ++ [("w", "2")]) ∧
      renderEventBody ([("u", "1")] ++ ("log.line", "7") :: [("w", "2")]) =
        renderEventBody ([("u", "1")] ++ [("w", "2")])) :=
  ⟨by decide,
    meta_keys_never_rendered "log.line" "7" (by decide) [("u", "1")] [("w", "2")]⟩

/-- Claim C9: a span named `login` with attribute map `{user: alice}`
renders its chain segment as exactly `"login{user=alice}: "`. -/
theorem login_segment_renders_exactly :
    renderSpanSegment "login" [("user", "alice")] = "login{user=alice}: " := by
  decide

/-- Claim C10, counterexample: an event whose `message` value carries an
embedded NUL byte makes `CString::new` at `logger.rs` lines 202-203 fail
(fatal), so the run performs zero emit calls, not exactly one. -/
theorem nul_event_emits_nothing :
    on_event Level.info none [("message", "a\x00b")] = none ∧
    emissions (on_event Level.info none [("message", "a\x00b")]) = [] := by
  decide

/-- Claim C10, amended: with no enclosing scope, and provided the rendered
message has no embedded NUL byte (otherwise the conversion to a C string
fails fatally and nothing is emitted), `on_event` performs exactly one
emit, and the message has no chain part: the `"message"` value plus two
spaces when present, then the remaining non-meta attributes space-separated
as `key=value` in collection order. -/
theorem on_event_no_scope (lvl : Level) (attributes : AttributeMap)
    (h : hasNul (renderMessage none attributes) = false) :
    (emissions (on_event lvl none attributes)).length = 1 ∧
    on_event lvl none attributes =
      some [⟨levelToOsLogType lvl,
        (match (removeKey "message" attributes).1 with
          | some value => value ++ "  "
          | none => "") ++
        sepJoin " " (renderedEntries (removeKey "message" attributes).2)⟩] := by
  have hev : on_event lvl none attributes =
      some [⟨levelToOsLogType lvl, renderMessage none attributes⟩] := by
    simp [on_event, h]
  have hbody : renderMessage none attributes =
      (match (removeKey "message" attributes).1 with
        | some value => value ++ "  "
        | none => "") ++
      sepJoin " " (renderedEntries (removeKey "message" attributes).2) := by
    simp only [renderMessage, renderEventBody, attrLoop_eq]
    simp
  rw [hbody] at hev
  exact ⟨by rw [hev]; rfl, hev⟩

/-- Witness for C10 at a concrete NUL-free event. -/
theorem on_event_no_scope_witness :
    hasNul (renderMessage none [("message", "done"), ("code", "7")]) = false ∧
    ((emissions (on_event Level.info none [("message", "done"), ("code", "7")])).length = 1 ∧
      on_event Level.info none [("message", "done"), ("code", "7")] =
        some [⟨levelToOsLogType Level.info,
          (match (removeKey "message" [("message", "done"), ("code", "7")]).1 with
            | some value => value ++ "  "
            | none => "") ++
          sepJoin " " (renderedEntries
            (removeKey "message" [("message", "done"), ("code", "7")]).2)⟩]) :=
  ⟨by decide,
    on_event_no_scope Level.info [("message", "done"), ("code", "7")] (by decide)⟩

end TracingOslog
